import Mathlib

/-!
Verification of the runtime animation core of libpag (rendering/animation and
rendering/layers), as a shallow embedding in Lean 4.

Machine floating-point (`double`/`float`) arithmetic is modelled over `ℚ`;
`int64_t` times and `Frame` counters are modelled over `ℤ`; C++ `size_t`
indices over `ℕ`.  Null pointers are modelled with `Option`.  Heap objects
reached through a layer pointer are carried as explicit state records, and
every mutating member function is embedded as a state-passing function.
-/

set_option autoImplicit false

namespace pag

/-! ## Basic numeric helpers (SlideLeftPreset.cpp, anonymous namespace) -/

/-- `Clamp01` from SlideLeftPreset.cpp: clamp a value to `[0, 1]`. -/
def Clamp01 (value : ℚ) : ℚ :=
  if value < 0 then 0
  else if value > 1 then 1
  else value

/-- `EaseOutCubic` from SlideLeftPreset.cpp: `1 - (1 - t)^3` on the clamped input. -/
def EaseOutCubic (t : ℚ) : ℚ :=
  let tc := Clamp01 t
  let inv := 1 - tc
  1 - inv * inv * inv

/-- `kEpsilon = 1e-6` from SlideLeftPreset.cpp / TextMotionPreset.cpp. -/
def kEpsilon : ℚ := 1 / 1000000

/-- `roundf` / `llround` semantics: round to nearest, halves away from zero. -/
def roundAway (q : ℚ) : ℤ :=
  if 0 ≤ q then ⌊q + 1 / 2⌋ else ⌈q - 1 / 2⌉

/-! ## Time and frame conversions

The helpers of base/utils/TimeUtil.h are used throughout PAGLayer.cpp and the
presets, but TimeUtil.h itself is not part of the sources under verification.
They are therefore modelled from the spec. -/

/-- Modelled from the spec: `TimeToFrame` (base/utils/TimeUtil.h, not under src/).
A frame is the "integer tick on a layer's local timeline at its owning
composition's frame rate", so a microsecond time maps to the tick containing it. -/
def TimeToFrame (time : ℤ) (frameRate : ℚ) : ℤ :=
  ⌊(time : ℚ) * frameRate / 1000000⌋

/-- Modelled from the spec: `FrameToTime` (base/utils/TimeUtil.h, not under src/).
The first microsecond belonging to the given frame tick. -/
def FrameToTime (frame : ℤ) (frameRate : ℚ) : ℤ :=
  ⌈(frame : ℚ) * 1000000 / frameRate⌉

/-- Modelled from the spec: `ProgressToTime` (base/utils/TimeUtil.h, not under src/).
A progress percentage scales the total duration. -/
def ProgressToTime (percent : ℚ) (totalTime : ℤ) : ℤ :=
  ⌊percent * (totalTime : ℚ)⌋

/-- Modelled from the spec: `FrameToProgress` (base/utils/TimeUtil.h, not under src/).
"Progress: normalized [0,1] position of the current content frame within a
layer's stretched duration." -/
def FrameToProgress (currentFrame totalFrames : ℤ) : ℚ :=
  if totalFrames ≤ 0 then 0
  else max 0 (min 1 ((currentFrame : ℚ) / (totalFrames : ℚ)))

/-! ## Transform2D (pag file model, as manipulated by PAGLayer.cpp)

A `Property<T>` that only ever carries a static value is modelled by its value;
a null property pointer by `none`.  `Opacity` is `uint8_t`; `Opaque = 255`. -/

structure Transform2D where
  anchorPoint : Option (ℚ × ℚ)
  position : Option (ℚ × ℚ)
  xPosition : Option ℚ
  yPosition : Option ℚ
  scale : Option (ℚ × ℚ)
  rotation : Option ℚ
  opacity : Option ℤ
  deriving DecidableEq, Repr

/-- Modelled from the spec: `Transform2D::MakeDefault` (pag file model, not under
src/).  The default transform of §3: anchor `(0,0)`, unified position `(0,0)`
(so x/yPosition are unpopulated), scale `(1,1)`, rotation `0`, opacity opaque. -/
def Transform2D.MakeDefault : Transform2D :=
  { anchorPoint := some (0, 0)
    position := some (0, 0)
    xPosition := none
    yPosition := none
    scale := some (1, 1)
    rotation := some 0
    opacity := some 255 }

/-- `GetPositionFromTransform` from SlideLeftPreset.cpp. -/
def GetPositionFromTransform : Option Transform2D → ℚ × ℚ
  | none => (0, 0)
  | some t =>
    match t.position with
    | some p => p
    | none =>
      match t.xPosition, t.yPosition with
      | some x, some y => (x, y)
      | _, _ => (0, 0)

/-! ## PAGLayer state (PAGLayer.cpp)

The slice of `PAGLayer` state the verified operations touch: the file-model
transform, the timeline bookkeeping and the content version counter.  Layers
built by `PAGTextLayer::Make` have a null `file`, hence frame rate 60, and a
fresh `TextLayer` with `startTime = 0`. -/

structure PAGLayerState where
  transform : Option Transform2D
  startFrame : ℤ
  frameDuration : ℤ
  frameRate : ℚ
  contentFrame : ℤ
  contentVersion : ℕ
  deriving DecidableEq, Repr

/-- Field-by-field copy step of `PAGLayer::setTransform2D` (PAGLayer.cpp):
each populated property of the argument replaces the target's property; a
unified position clears x/yPosition, separate x/y positions clear position. -/
def setTransform2DApply (arg target : Transform2D) : Transform2D :=
  let t1 :=
    match arg.anchorPoint with
    | some a => { target with anchorPoint := some a }
    | none => target
  let t2 :=
    if arg.position.isSome then
      { t1 with position := arg.position, xPosition := none, yPosition := none }
    else
      let ta := { t1 with position := none }
      let tb :=
        match arg.xPosition with
        | some x => { ta with xPosition := some x }
        | none => ta
      match arg.yPosition with
      | some y => { tb with yPosition := some y }
      | none => tb
  let t3 :=
    match arg.scale with
    | some s => { t2 with scale := some s }
    | none => t2
  let t4 :=
    match arg.rotation with
    | some r => { t3 with rotation := some r }
    | none => t3
  match arg.opacity with
  | some o => { t4 with opacity := some o }
  | none => t4

/-- `PAGLayer::setTransform2D` (PAGLayer.cpp): null argument is a no-op; a
missing layer transform is seeded with `Transform2D::MakeDefault`; ends with
`notifyModified(true)` which bumps this layer's content version (the ancestor
walk of `notifyModified` is verified separately on the tree model). -/
def PAGLayer.setTransform2D (arg : Option Transform2D) (st : PAGLayerState) : PAGLayerState :=
  match arg with
  | none => st
  | some t =>
    let target := st.transform.getD Transform2D.MakeDefault
    { st with
        transform := some (setTransform2DApply t target)
        contentVersion := st.contentVersion + 1 }

/-- `PAGLayer::getTransform2D` (PAGLayer.cpp) returns a deep clone of the layer
transform; on the static-value model the clone has the same populated fields
and values. -/
def PAGLayer.getTransform2D (st : PAGLayerState) : Option Transform2D :=
  st.transform

/-- `PAGLayer::startTimeInternal` (PAGLayer.cpp). -/
def PAGLayer.startTimeInternal (st : PAGLayerState) : ℤ :=
  FrameToTime st.startFrame st.frameRate

/-- `PAGLayer::durationInternal` (PAGLayer.cpp); `stretchedFrameDuration()` is
`frameDuration()` for a plain layer. -/
def PAGLayer.durationInternal (st : PAGLayerState) : ℤ :=
  FrameToTime st.frameDuration st.frameRate

/-- `PAGLayer::gotoTime` (PAGLayer.cpp) for a layer without a track matte:
`contentFrame = layerFrame - startFrame`. -/
def PAGLayer.gotoTime (layerTime : ℤ) (st : PAGLayerState) : PAGLayerState :=
  { st with contentFrame := TimeToFrame layerTime st.frameRate - st.startFrame }

/-- `PAGLayer::setProgressInternal` (PAGLayer.cpp):
`gotoTimeAndNotifyChanged(startTimeInternal() + ProgressToTime(percent, durationInternal()))`. -/
def PAGLayer.setProgress (percent : ℚ) (st : PAGLayerState) : PAGLayerState :=
  PAGLayer.gotoTime (PAGLayer.startTimeInternal st + ProgressToTime percent (PAGLayer.durationInternal st)) st

/-- `PAGLayer::getProgressInternal` (PAGLayer.cpp):
`FrameToProgress(stretchedContentFrame(), stretchedFrameDuration())`. -/
def PAGLayer.getProgress (st : PAGLayerState) : ℚ :=
  FrameToProgress st.contentFrame st.frameDuration

/-! ## Text document and `PAGTextLayer::Make` (PAGTextLayer.cpp) -/

structure TextDocument where
  text : String
  fontSize : ℚ
  fontFamily : String
  fontStyle : String
  deriving DecidableEq, Repr

/-- `PAGTextLayer::Make(duration, textDocumentHandle)` (PAGTextLayer.cpp):
returns null for non-positive duration or a null document, otherwise builds a
fresh text layer (null file, so frame rate 60, start frame 0) whose transform
position is `(0, fontSize)` and whose frame duration is `TimeToFrame(duration, 60)`. -/
def PAGTextLayer.Make (duration : ℤ) (textDocumentHandle : Option TextDocument) :
    Option PAGLayerState :=
  if duration ≤ 0 ∨ textDocumentHandle = none then none
  else
    match textDocumentHandle with
    | none => none
    | some doc =>
      some
        { transform := some { Transform2D.MakeDefault with position := some (0, doc.fontSize) }
          startFrame := 0
          frameDuration := TimeToFrame duration 60
          frameRate := 60
          contentFrame := 0
          contentVersion := 0 }

/-! ## SlideLeftGlyphProvider (SlideLeftPreset.cpp) -/

structure SlideLeftGlyphProvider where
  durationUS : ℤ
  staggerFraction : ℚ
  trailingFactor : ℚ
  translationDeltaX : ℚ
  manualTimeUS : ℚ
  deriving DecidableEq, Repr

/-- The `SlideLeftGlyphProvider` constructor (SlideLeftPreset.cpp):
`durationUS = max(duration, 1)`, `staggerFraction = clamp(stagger, 0, 0.95)`,
`trailingFactor = max(0, trailing)`, `manualTimeUS = -1` (no manual override). -/
def SlideLeftGlyphProvider.make (duration : ℤ) (translationDeltaX stagger trailing : ℚ) :
    SlideLeftGlyphProvider :=
  { durationUS := max duration 1
    staggerFraction := max 0 (min stagger (95 / 100))
    trailingFactor := max 0 trailing
    translationDeltaX := translationDeltaX
    manualTimeUS := -1 }

/-- `SlideLeftGlyphProvider::setProgress` (SlideLeftPreset.cpp). -/
def SlideLeftGlyphProvider.setProgress (st : SlideLeftGlyphProvider) (progress : ℚ) :
    SlideLeftGlyphProvider :=
  { st with manualTimeUS := Clamp01 progress * (st.durationUS : ℚ) }

/-- Per-glyph values of the `compute` loop body (SlideLeftPreset.cpp):
`(dx[i], dy[i], alpha[i])`. -/
def SlideLeftGlyphProvider.glyphValue (baseEased perGlyphDelay activeDuration time : ℚ)
    (translationDeltaX trailingFactor : ℚ) (i : ℕ) : ℚ × ℚ × ℚ :=
  let startTime := perGlyphDelay * (i : ℚ)
  let localTime := time - startTime
  let t : ℚ :=
    if localTime ≤ 0 then 0
    else if localTime ≥ activeDuration then 1
    else localTime / activeDuration
  let glyphEased := EaseOutCubic t
  let offset := (glyphEased - baseEased) * translationDeltaX * trailingFactor
  (offset, 0, Clamp01 glyphEased)

/-- `SlideLeftGlyphProvider::compute` (SlideLeftPreset.cpp).  The output arrays
are modelled as lists `(applied, dx, dy, alpha)`; the null-output-pointer early
return has no analogue because the model always materialises the lists. -/
def SlideLeftGlyphProvider.compute (st : SlideLeftGlyphProvider) (layerTimeUS : ℤ)
    (totalGlyphs : ℕ) : Bool × List ℚ × List ℚ × List ℚ :=
  if totalGlyphs = 0 then (false, [], [], [])
  else
    let time0 : ℚ := if 0 ≤ st.manualTimeUS then st.manualTimeUS else (layerTimeUS : ℚ)
    let time := max 0 (min time0 (st.durationUS : ℚ))
    let baseNormalized : ℚ := if 0 < st.durationUS then time / (st.durationUS : ℚ) else 0
    let baseEased := EaseOutCubic baseNormalized
    let totalDelay := (st.durationUS : ℚ) * st.staggerFraction
    let perGlyphDelay : ℚ :=
      if 1 < totalGlyphs then totalDelay / ((totalGlyphs - 1 : ℕ) : ℚ) else 0
    let activeDuration0 := (st.durationUS : ℚ) - totalDelay
    let activeDuration := if activeDuration0 ≤ kEpsilon then (st.durationUS : ℚ) else activeDuration0
    let vals := (List.range totalGlyphs).map
      (SlideLeftGlyphProvider.glyphValue baseEased perGlyphDelay activeDuration time
        st.translationDeltaX st.trailingFactor)
    let applied := vals.any fun v => decide (kEpsilon < |v.1|) || decide (0 < v.2.2)
    (applied, vals.map (·.1), vals.map (fun _ => 0), vals.map (·.2.2))

/-! ## SlideLeftPreset (SlideLeftPreset.cpp) -/

structure SlideLeftPreset where
  durationUS : ℤ
  staggerFraction : ℚ
  trailingFactor : ℚ
  currentProgress : ℚ
  anchorPoint : ℚ × ℚ
  startPosition : ℚ × ℚ
  endPosition : ℚ × ℚ
  scale : ℚ × ℚ
  rotation : ℚ
  opacity : ℤ
  deriving DecidableEq, Repr

/-- The `SlideLeftPreset` constructor (SlideLeftPreset.cpp) for a live layer:
snapshots anchor/scale/rotation/opacity and the base position of the layer's
transform (defaulted when absent), then overrides the x coordinates by
`startX` / `endX`. -/
def SlideLeftPreset.make (baseTransform : Option Transform2D) (presetDuration : ℤ)
    (startX endX stagger trailing : ℚ) : SlideLeftPreset :=
  let base := baseTransform.getD Transform2D.MakeDefault
  let basePosition := GetPositionFromTransform (some base)
  { durationUS := presetDuration
    staggerFraction := stagger
    trailingFactor := trailing
    currentProgress := 0
    anchorPoint := base.anchorPoint.getD (0, 0)
    startPosition := (startX, basePosition.2)
    endPosition := (endX, basePosition.2)
    scale := base.scale.getD (1, 1)
    rotation := base.rotation.getD 0
    opacity := base.opacity.getD 255 }

/-- `SlideLeftPreset::Make` (SlideLeftPreset.cpp): null when the text layer is
null or the duration is non-positive.  The layer pointer is modelled by a
presence flag plus the layer's current transform. -/
def SlideLeftPreset.Make (hasTextLayer : Bool) (baseTransform : Option Transform2D)
    (duration : ℤ) (startX endX stagger trailing : ℚ) : Option SlideLeftPreset :=
  if hasTextLayer = false ∨ duration ≤ 0 then none
  else some (SlideLeftPreset.make baseTransform duration startX endX stagger trailing)

/-- `SlideLeftPreset::updateTransform` (SlideLeftPreset.cpp): build a default
transform, overwrite its values from the preset snapshot, interpolate the
position by the eased progress and install it with `setTransform2D`. -/
def SlideLeftPreset.updateTransform (pr : SlideLeftPreset) (easedProgress : ℚ)
    (st : PAGLayerState) : PAGLayerState :=
  let position : ℚ × ℚ :=
    (pr.startPosition.1 + (pr.endPosition.1 - pr.startPosition.1) * easedProgress,
     pr.startPosition.2 + (pr.endPosition.2 - pr.startPosition.2) * easedProgress)
  let transform : Transform2D :=
    { Transform2D.MakeDefault with
        anchorPoint := some pr.anchorPoint
        scale := some pr.scale
        rotation := some pr.rotation
        opacity := some pr.opacity
        position := some position }
  PAGLayer.setTransform2D (some transform) st

/-- `SlideLeftPreset::apply` (SlideLeftPreset.cpp) on a live layer: clamp the
progress, drive the layer progress, the glyph provider and the transform, and
end with `notifyModified(true)` (content version bump on this layer). -/
def SlideLeftPreset.apply (pr : SlideLeftPreset) (provider : SlideLeftGlyphProvider)
    (progress : ℚ) (st : PAGLayerState) :
    SlideLeftPreset × SlideLeftGlyphProvider × PAGLayerState :=
  let cp := Clamp01 progress
  let pr1 := { pr with currentProgress := cp }
  let st1 := PAGLayer.setProgress cp st
  let eased := EaseOutCubic cp
  let provider1 := provider.setProgress cp
  let st2 := pr1.updateTransform eased st1
  (pr1, provider1, { st2 with contentVersion := st2.contentVersion + 1 })

/-! ## Nested-timeline frame remapping (PAGLayer.cpp)

`localFrameToGlobal` walks the timeline-owner chain from the layer to the
root; `globalToLocalFrame` materialises the same chain and applies
`localFrameToChild` from the root back down.  The chain of timeline owners is
modelled as a list ordered from the immediate owner to the root; each node
carries the `startFrame` and frame rate the conversions read. -/

structure TimelineNode where
  startFrame : ℤ
  frameRate : ℚ
  deriving DecidableEq, Repr

/-- `PAGLayer::localFrameToChild` (PAGLayer.cpp):
`round((localFrame - startFrame) * (childFrameRate / frameRate))`. -/
def TimelineNode.localFrameToChild (n : TimelineNode) (localFrame : ℤ) (childFrameRate : ℚ) : ℤ :=
  roundAway (((localFrame - n.startFrame : ℤ) : ℚ) * (childFrameRate / n.frameRate))

/-- `PAGLayer::childFrameToLocal` (PAGLayer.cpp):
`round(childFrame * (frameRate / childFrameRate)) + startFrame`. -/
def TimelineNode.childFrameToLocal (n : TimelineNode) (childFrame : ℤ) (childFrameRate : ℚ) : ℤ :=
  roundAway ((childFrame : ℚ) * (n.frameRate / childFrameRate)) + n.startFrame

/-- `PAGLayer::localFrameToGlobal` (PAGLayer.cpp): fold `childFrameToLocal`
up the owner chain, carrying the frame rate of the layer just converted from. -/
def localFrameToGlobal : List TimelineNode → ℚ → ℤ → ℤ
  | [], _, localFrame => localFrame
  | p :: rest, childFrameRate, localFrame =>
    localFrameToGlobal rest p.frameRate (p.childFrameToLocal localFrame childFrameRate)

/-- `PAGLayer::globalToLocalFrame` (PAGLayer.cpp): apply `localFrameToChild`
along the materialised owner chain in reverse (root first), each step using the
frame rate of the next layer toward the leaf. -/
def globalToLocalFrame : List TimelineNode → ℚ → ℤ → ℤ
  | [], _, globalFrame => globalFrame
  | p :: rest, selfFrameRate, globalFrame =>
    p.localFrameToChild (globalToLocalFrame rest p.frameRate globalFrame) selfFrameRate

/-! ## Content-version invalidation walk (PAGLayer.cpp)

A tree of `n` layers is modelled by its `_parent` and `trackMatteOwner`
pointer maps on indices `Fin n`.  Acyclicity of the pointer structure (true of
any real layer tree) is expressed by a strictly decreasing index measure. -/

structure LayerForest (n : ℕ) where
  parent : Fin n → Option (Fin n)
  trackMatteOwner : Fin n → Option (Fin n)

/-- `PAGLayer::getParentOrOwner` (PAGLayer.cpp): `_parent` first, else the
track-matte owner, else null. -/
def LayerForest.getParentOrOwner {n : ℕ} (t : LayerForest n) (i : Fin n) : Option (Fin n) :=
  match t.parent i with
  | some p => some p
  | none => t.trackMatteOwner i

/-- The pointer structure is acyclic: following `getParentOrOwner` strictly
decreases the layer index. -/
def LayerForest.Acyclic {n : ℕ} (t : LayerForest n) : Prop :=
  ∀ i j : Fin n, t.getParentOrOwner i = some j → j.val < i.val

instance {n : ℕ} (t : LayerForest n) : Decidable t.Acyclic := by
  unfold LayerForest.Acyclic
  infer_instance

/-- The ancestor walk of `PAGLayer::notifyModified` (PAGLayer.cpp), written
with explicit fuel so it stays structurally recursive; on an acyclic forest a
fuel of `n` always reaches the null pointer ending the walk. -/
def ancestorChainAux {n : ℕ} (t : LayerForest n) : ℕ → Fin n → List (Fin n)
  | 0, _ => []
  | fuel + 1, i =>
    match t.getParentOrOwner i with
    | none => []
    | some j => j :: ancestorChainAux t fuel j

/-- The layers visited by the `while (parentLayer)` loop of
`PAGLayer::notifyModified`, in visit order. -/
def ancestorChain {n : ℕ} (t : LayerForest n) (i : Fin n) : List (Fin n) :=
  ancestorChainAux t n i

/-- The pointer-walk characterisation: a list is the walk from `i` when it
follows `getParentOrOwner` links and ends at a null link. -/
inductive IsOwnerWalk {n : ℕ} (t : LayerForest n) : Fin n → List (Fin n) → Prop
  | stop {i : Fin n} : t.getParentOrOwner i = none → IsOwnerWalk t i []
  | step {i j : Fin n} {l : List (Fin n)} :
      t.getParentOrOwner i = some j → IsOwnerWalk t j l → IsOwnerWalk t i (j :: l)

/-- `PAGLayer::notifyModified(contentChanged)` (PAGLayer.cpp): bump the local
`contentVersion` when the content changed, then bump the counter of every layer
on the parent-or-owner walk.  `versions` maps each layer to its counter. -/
def notifyModified {n : ℕ} (t : LayerForest n) (versions : Fin n → ℕ) (i : Fin n)
    (contentChanged : Bool) : Fin n → ℕ :=
  let v1 := if contentChanged then Function.update versions i (versions i + 1) else versions
  (ancestorChain t i).foldl (fun acc j => Function.update acc j (acc j + 1)) v1

/-! ## Root-lock propagation (PAGLayer.cpp)

Each layer owns at most one track-matte layer, which again may own one, so the
layers reached by `updateRootLocker`'s recursion form a chain.  A layer is
modelled by the list of lock identities along that chain (head = the layer
itself); lock objects are identified by numbers, `std::make_shared<std::mutex>`
returns an identity distinct from every lock that already exists. -/

/-- `PAGLayer::updateRootLocker` (PAGLayer.cpp): recurse into the attached
track-matte subtree, then install the new lock on the layer itself. -/
def updateRootLocker : List ℕ → ℕ → List ℕ
  | [], _ => []
  | _self :: matteChain, newLocker => newLocker :: updateRootLocker matteChain newLocker

/-- `PAGLayer::detachFromTree` (PAGLayer.cpp): after the stage removal (which
does not touch lock state) a freshly allocated lock is installed via
`updateRootLocker`. -/
def detachFromTree (lockChain : List ℕ) (freshLocker : ℕ) : List ℕ :=
  updateRootLocker lockChain freshLocker

/-! ## TextMotionOptions (include/pag/animation/TextMotionOptions.h) -/

inductive TextMotionType
  | Fade | Scale | Slide | Swing
  deriving DecidableEq, Repr

inductive TextMotionDirection
  | Up | Left | Right | Down | Side
  deriving DecidableEq, Repr

inductive TextMotionEasing
  | Smooth | EaseIn | EaseOut | Back | Bounce | Spring
  deriving DecidableEq, Repr

inductive TextMotionEffect
  | None | Letter | Word
  deriving DecidableEq, Repr

inductive TextMotionEffectSmooth
  | None | Smooth | EaseIn | EaseOut
  deriving DecidableEq, Repr

structure TextMotionOptions where
  type : TextMotionType := .Fade
  direction : TextMotionDirection := .Up
  duration : ℚ := 0
  distance : ℚ := 1 / 2
  easing : TextMotionEasing := .Smooth
  effect : TextMotionEffect := .None
  effectDelay : ℚ := 0
  effectSmooth : TextMotionEffectSmooth := .None
  deriving DecidableEq, Repr

/-- `AnchorPointGrouping` from the pag file model (value 0 is `Character`). -/
inductive AnchorPointGrouping
  | Character | Word | Line | All
  deriving DecidableEq, Repr

/-! ## Range segmentation (TextMotionPreset.cpp, anonymous namespace) -/

/-- `UnitRange` (TextMotionPreset.cpp); the exclusive upper bound is named
`stop` because `end` is reserved in Lean. -/
structure UnitRange where
  start : ℕ
  stop : ℕ
  deriving DecidableEq, Repr

/-- `ToPercent` (TextMotionPreset.cpp). -/
def ToPercent (value total : ℕ) : ℚ :=
  if total = 0 then 0 else (value : ℚ) / (total : ℚ)

/-- The C `isspace` test on the single byte of a one-character glyph name
(ASCII whitespace). -/
def IsSpaceChar (c : Char) : Bool :=
  c == ' ' || c == '\t' || c == '\n' || c == '\u000B' || c == '\u000C' || c == '\r'

/-- `IsWhitespaceGlyph` (TextMotionPreset.cpp) on the glyph's name: empty
names are not whitespace; `"\n"`, `"\r"` and single whitespace characters are. -/
def IsWhitespaceGlyph (name : String) : Bool :=
  if name.isEmpty then false
  else if name = "\n" || name = "\r" then true
  else
    match name.toList with
    | [c] => IsSpaceChar c
    | _ => false

/-- `BuildRanges` (TextMotionPreset.cpp): segment the glyph indices by effect
(`None` = full span, `Letter` = one range per non-whitespace glyph, `Word` =
maximal non-whitespace runs), and fall back to one full-span range when
segmentation yields nothing (e.g. whitespace-only text). -/
def BuildRanges (effect : TextMotionEffect) (glyphs : List String) : List UnitRange :=
  if glyphs.isEmpty then []
  else
    let ranges : List UnitRange :=
      match effect with
      | .Letter =>
        ((List.range glyphs.length).filter
          (fun i => !IsWhitespaceGlyph (glyphs.getD i ""))).map (fun i => ⟨i, i + 1⟩)
      | .Word =>
        let step := fun (st : Bool × ℕ × List UnitRange) (i : ℕ) =>
          let inWord := st.1
          let startIndex := st.2.1
          let acc := st.2.2
          if IsWhitespaceGlyph (glyphs.getD i "") then
            if inWord then (false, startIndex, acc ++ [⟨startIndex, i⟩]) else st
          else if !inWord then (true, i, acc)
          else st
        let final := (List.range glyphs.length).foldl step (false, 0, [])
        if final.1 then final.2.2 ++ [⟨final.2.1, glyphs.length⟩] else final.2.2
      | .None => [⟨0, glyphs.length⟩]
    if ranges.isEmpty then [⟨0, glyphs.length⟩] else ranges

/-- `ApplyEffectSmooth` (TextMotionPreset.cpp): the stagger-redistribution
curves on a clamped argument. -/
def ApplyEffectSmooth (smooth : TextMotionEffectSmooth) (t : ℚ) : ℚ :=
  let tc := max 0 (min t 1)
  match smooth with
  | .Smooth => tc * tc * (3 - 2 * tc)
  | .EaseIn => tc * tc
  | .EaseOut =>
    let inv := 1 - tc
    1 - inv * inv
  | .None => tc

inductive KeyframeInterpolationType
  | Linear | Bezier
  deriving DecidableEq, Repr

/-- `EasingConfig` (TextMotionPreset.cpp). -/
structure EasingConfig where
  type : KeyframeInterpolationType := .Linear
  controlOut : ℚ × ℚ := (0, 0)
  controlIn : ℚ × ℚ := (1, 1)
  deriving DecidableEq, Repr

/-- `GetEasingConfig` (TextMotionPreset.cpp): the fixed easing-family table. -/
def GetEasingConfig (easing : TextMotionEasing) : EasingConfig :=
  match easing with
  | .EaseIn => { type := .Bezier, controlOut := (42/100, 0), controlIn := (1, 1) }
  | .EaseOut => { type := .Bezier, controlOut := (0, 0), controlIn := (58/100, 1) }
  | .Back => { type := .Bezier, controlOut := (36/100, -2/10), controlIn := (66/100, 12/10) }
  | .Bounce => { type := .Bezier, controlOut := (3/10, 13/10), controlIn := (6/10, 1) }
  | .Spring => { type := .Bezier, controlOut := (45/100, 14/10), controlIn := (8/10, 1) }
  | .Smooth => { type := .Bezier, controlOut := (42/100, 0), controlIn := (58/100, 1) }

/-- The single synthesized keyframe of one typography-property animation
(`SingleEaseKeyframe` / `MultiDimensionPointKeyframe` in the source). -/
structure KeyframeData (α : Type) where
  startTime : ℤ
  endTime : ℤ
  startValue : α
  endValue : α
  interpolationType : KeyframeInterpolationType
  bezierOut : List (ℚ × ℚ)
  bezierIn : List (ℚ × ℚ)
  deriving DecidableEq, Repr

/-- `MakeScalarAnimation` (TextMotionPreset.cpp): one `SingleEaseKeyframe`
with one control-point pair when the easing is Bezier. -/
def MakeScalarAnimation {α : Type} (startFrame endFrame : ℤ) (startValue endValue : α)
    (easing : EasingConfig) : KeyframeData α :=
  { startTime := startFrame
    endTime := endFrame
    startValue := startValue
    endValue := endValue
    interpolationType := easing.type
    bezierOut := if easing.type = .Bezier then [easing.controlOut] else []
    bezierIn := if easing.type = .Bezier then [easing.controlIn] else [] }

/-- `MakePointAnimation` (TextMotionPreset.cpp): one
`MultiDimensionPointKeyframe` with the control point duplicated per axis. -/
def MakePointAnimation (startFrame endFrame : ℤ) (startValue endValue : ℚ × ℚ)
    (easing : EasingConfig) : KeyframeData (ℚ × ℚ) :=
  { startTime := startFrame
    endTime := endFrame
    startValue := startValue
    endValue := endValue
    interpolationType := easing.type
    bezierOut := if easing.type = .Bezier then [easing.controlOut, easing.controlOut] else []
    bezierIn := if easing.type = .Bezier then [easing.controlIn, easing.controlIn] else [] }

/-- `ComputeSlideOffset` (TextMotionPreset.cpp): direction-derived offset
scaled by `distance * fontSize` (0 for a null document). -/
def ComputeSlideOffset (document : Option TextDocument) (direction : TextMotionDirection)
    (distance : ℚ) : ℚ × ℚ :=
  let fontSize := match document with | some d => d.fontSize | none => 0
  let magnitude := distance * fontSize
  match direction with
  | .Up => (0, -magnitude)
  | .Down => (0, magnitude)
  | .Left => (-magnitude, 0)
  | .Right => (magnitude, 0)
  | .Side => (magnitude, 0)

/-- `ComputeSwingAngle` (TextMotionPreset.cpp): the direction-to-angle table. -/
def ComputeSwingAngle (direction : TextMotionDirection) : ℚ :=
  match direction with
  | .Up => -20
  | .Down => 20
  | .Left => -15
  | .Right => 15
  | .Side => 12

/-! ## TextMotionPreset state (TextMotionPreset.cpp) -/

inductive TextSelectorBasedOn
  | Characters | Words
  deriving DecidableEq, Repr

/-- `TextRangeSelector` as filled in by `TextMotionPreset::apply`; `start` and
`end` percentage properties are `selStart` / `selEnd` (`end` is reserved). -/
structure TextRangeSelector where
  selStart : ℚ
  selEnd : ℚ
  offset : ℚ
  basedOn : TextSelectorBasedOn
  amount : ℚ
  smoothness : ℚ
  easeHigh : ℚ
  easeLow : ℚ
  randomizeOrder : Bool
  randomSeed : ℕ
  deriving DecidableEq, Repr

/-- `TextAnimatorTypographyProperties` restricted to the four animations the
preset synthesizes; opacity values are `Transparent = 0` / `Opaque = 255`. -/
structure TypographyProperties where
  position : Option (KeyframeData (ℚ × ℚ)) := none
  scale : Option (KeyframeData (ℚ × ℚ)) := none
  rotation : Option (KeyframeData ℚ) := none
  opacity : Option (KeyframeData ℤ) := none
  deriving DecidableEq, Repr

/-- One `TextAnimator` appended by the preset: one range selector plus one set
of typography properties. -/
structure TextAnimator where
  selector : TextRangeSelector
  typographyProperties : TypographyProperties
  deriving DecidableEq, Repr

/-- `TextMoreOptions` of the pag file model, restricted to the fields the
preset touches. -/
structure TextMoreOptions where
  anchorPointGrouping : AnchorPointGrouping
  groupingAlignment : Option (ℚ × ℚ)
  deriving DecidableEq, Repr

/-- The slice of `TextLayer` the preset reads and mutates.  `glyphs` is the
flattened glyph-name sequence produced by the external `GetLines` text-layout
collaborator for `sourceText` (glyph shaping is outside the core);
`startTime` and `duration` are in frames. -/
structure TextLayerState where
  startTime : ℤ
  duration : ℤ
  sourceText : Option TextDocument
  glyphs : List String
  animators : List TextAnimator
  moreOption : Option TextMoreOptions
  deriving DecidableEq, Repr

/-- The `TextMotionPreset` object (TextMotionPreset.h): the layer pointer, the
frame rate, and the bookkeeping recorded at construction. -/
structure TextMotionPreset where
  layer : Option TextLayerState
  frameRate : ℚ
  baseAnimatorCount : ℕ
  createdMoreOption : Bool
  originalGrouping : AnchorPointGrouping
  deriving DecidableEq, Repr

/-- The `TextMotionPreset` constructor (TextMotionPreset.cpp): record the
animator count and the current anchor grouping (defaulting to `Character`). -/
def TextMotionPreset.make (textLayer : Option TextLayerState) (rate : ℚ) : TextMotionPreset :=
  match textLayer with
  | none =>
    { layer := none, frameRate := rate, baseAnimatorCount := 0,
      createdMoreOption := false, originalGrouping := .Character }
  | some l =>
    { layer := some l
      frameRate := rate
      baseAnimatorCount := l.animators.length
      createdMoreOption := false
      originalGrouping :=
        match l.moreOption with
        | some m => m.anchorPointGrouping
        | none => .Character }

/-- `TextMotionPreset::clear` (TextMotionPreset.cpp): remove a grouping-option
object this preset created (or restore the original grouping mode), then
truncate the animator list back to the count recorded at construction. -/
def TextMotionPreset.clear (pr : TextMotionPreset) : TextMotionPreset :=
  match pr.layer with
  | none => pr
  | some l =>
    let cleared : TextLayerState × Bool :=
      if pr.createdMoreOption then
        ({ l with moreOption := none }, false)
      else
        match l.moreOption with
        | some m =>
          ({ l with moreOption := some { m with anchorPointGrouping := pr.originalGrouping } },
           pr.createdMoreOption)
        | none => (l, pr.createdMoreOption)
    { pr with
        layer := some { cleared.1 with animators := cleared.1.animators.take pr.baseAnimatorCount }
        createdMoreOption := cleared.2 }

/-- The per-range animator of the loop body of `TextMotionPreset::apply`
(TextMotionPreset.cpp): clamp the range, compute the stagger offset, derive
clamped start/end frames and build the selector plus the single typography
animation for the option type; `none` when the clamped range is empty. -/
def TextMotionPreset.rangeAnimator (options : TextMotionOptions) (textDocument : TextDocument)
    (frameRate : ℚ) (layerStartTime layerDuration : ℤ) (glyphCount rangeCount : ℕ)
    (easing : EasingConfig) (durationUS delayUS totalStaggerUS : ℚ)
    (i : ℕ) (range0 : UnitRange) : Option TextAnimator :=
  let rstart := min range0.start glyphCount
  let rstop := min range0.stop glyphCount
  if rstop ≤ rstart then none
  else
    let offsetUS : ℚ :=
      if options.effect ≠ .None ∧ 1 < rangeCount then
        if options.effectSmooth = .None then delayUS * (i : ℚ)
        else
          let normalized := (i : ℚ) / ((rangeCount - 1 : ℕ) : ℚ)
          ApplyEffectSmooth options.effectSmooth normalized * totalStaggerUS
      else 0
    let startFrame := layerStartTime + TimeToFrame (roundAway offsetUS) frameRate
    let endFrame0 := layerStartTime + TimeToFrame (roundAway (offsetUS + durationUS)) frameRate
    let endFrame1 := if endFrame0 ≤ startFrame then startFrame + 1 else endFrame0
    let lastFrame := layerStartTime + layerDuration
    let endFrame :=
      if lastFrame < endFrame1 then
        if lastFrame ≤ startFrame then startFrame + 1 else lastFrame
      else endFrame1
    let selector : TextRangeSelector :=
      { selStart := ToPercent rstart glyphCount
        selEnd := ToPercent rstop glyphCount
        offset := 0
        basedOn := if options.effect = .Word then .Words else .Characters
        amount := 1
        smoothness := 1
        easeHigh := 0
        easeLow := 0
        randomizeOrder := false
        randomSeed := 0 }
    let props : TypographyProperties :=
      match options.type with
      | .Scale => { scale := some (MakePointAnimation startFrame endFrame (0, 0) (1, 1) easing) }
      | .Slide =>
        { position := some (MakePointAnimation startFrame endFrame
            (ComputeSlideOffset (some textDocument) options.direction options.distance)
            (0, 0) easing) }
      | .Swing =>
        { rotation := some (MakeScalarAnimation startFrame endFrame
            (ComputeSwingAngle options.direction) 0 easing) }
      | .Fade =>
        { opacity := some (MakeScalarAnimation startFrame endFrame 0 255 easing) }
    some { selector := selector, typographyProperties := props }

/-- The grouping-option update of `TextMotionPreset::apply`
(TextMotionPreset.cpp): install a grouping option carrying the default
alignment `(0.5, 0.5)` when the layer has none (remembering that this preset
created it), otherwise fill a missing alignment and set the target grouping
derived from the effect. -/
def TextMotionPreset.applyMoreOption (l : TextLayerState) (options : TextMotionOptions)
    (createdMoreOption : Bool) : TextLayerState × Bool :=
  let targetGrouping : AnchorPointGrouping :=
    if options.effect = .Word then .Word
    else if options.effect = .None then .All
    else .Character
  let alignmentTarget : ℚ × ℚ := (1/2, 1/2)
  match l.moreOption with
  | none =>
    let created : TextMoreOptions :=
      { anchorPointGrouping := targetGrouping,
        groupingAlignment := some alignmentTarget }
    ({ l with moreOption := some created }, true)
  | some m =>
    let m1 :=
      if m.groupingAlignment = none then
        { m with groupingAlignment := some alignmentTarget }
      else m
    ({ l with moreOption := some { m1 with anchorPointGrouping := targetGrouping } },
     createdMoreOption)

/-- The animator list built by the range loop of `TextMotionPreset::apply`
(TextMotionPreset.cpp), one entry per non-empty clamped range. -/
def TextMotionPreset.generatedAnimators (frameRate : ℚ) (l : TextLayerState)
    (textDocument : TextDocument) (options : TextMotionOptions) : List TextAnimator :=
  let ranges := BuildRanges options.effect l.glyphs
  let glyphCount := l.glyphs.length
  let easing := GetEasingConfig options.easing
  let durationUS := max 0 options.duration
  let delayUS := max 0 options.effectDelay
  let totalStaggerUS : ℚ :=
    if 1 < ranges.length then delayUS * ((ranges.length - 1 : ℕ) : ℚ) else 0
  (List.range ranges.length).filterMap fun i =>
    TextMotionPreset.rangeAnimator options textDocument frameRate
      l.startTime l.duration glyphCount ranges.length easing
      durationUS delayUS totalStaggerUS i (ranges.getD i ⟨0, 0⟩)

/-- The post-clear body of `TextMotionPreset::apply` (TextMotionPreset.cpp)
once the layer, text document and glyphs are known to be present: update the
grouping option, append one animator per non-empty range and report whether
any was created.  `pr1` is the already-cleared preset whose layer is `l`. -/
def TextMotionPreset.applyToLayer (pr1 : TextMotionPreset) (l : TextLayerState)
    (textDocument : TextDocument) (options : TextMotionOptions) : Bool × TextMotionPreset :=
  let optioned := TextMotionPreset.applyMoreOption l options pr1.createdMoreOption
  let newAnimators := TextMotionPreset.generatedAnimators pr1.frameRate l textDocument options
  let anyCreated := !newAnimators.isEmpty
  (anyCreated,
   { pr1 with
       layer := some { optioned.1 with animators := optioned.1.animators ++ newAnimators }
       createdMoreOption := optioned.2 })

/-- `TextMotionPreset::apply` (TextMotionPreset.cpp): always `clear()` first;
bail out (false) on a null layer, null text document or empty glyph list;
otherwise run the animator-building body. -/
def TextMotionPreset.apply (pr : TextMotionPreset) (options : TextMotionOptions) :
    Bool × TextMotionPreset :=
  match pr.layer with
  | none => (false, pr)
  | some _ =>
    let pr1 := pr.clear
    match pr1.layer with
    | none => (false, pr1)
    | some l =>
      match l.sourceText with
      | none => (false, pr1)
      | some textDocument =>
        if l.glyphs.isEmpty then (false, pr1)
        else TextMotionPreset.applyToLayer pr1 l textDocument options

/-- The animator count on the preset's layer (0 for a null layer). -/
def TextMotionPreset.layerAnimatorCount (pr : TextMotionPreset) : ℕ :=
  match pr.layer with
  | some l => l.animators.length
  | none => 0

/-- The animator list on the preset's layer ([] for a null layer). -/
def TextMotionPreset.layerAnimators (pr : TextMotionPreset) : List TextAnimator :=
  match pr.layer with
  | some l => l.animators
  | none => []

/-- `rangesGeneratedFor` in the spec's words: the number of animators a single
`apply(options)` generates on a layer — zero on the degenerate early-outs,
otherwise the number of segmented ranges that are non-empty after clamping to
the glyph count. -/
def rangesGeneratedFor (options : TextMotionOptions) (l : TextLayerState) : ℕ :=
  if l.sourceText = none ∨ l.glyphs.isEmpty then 0
  else
    let ranges := BuildRanges options.effect l.glyphs
    ((List.range ranges.length).filter fun i =>
      let r := ranges.getD i ⟨0, 0⟩
      decide (min r.start l.glyphs.length < min r.stop l.glyphs.length)).length

/-- The start/end frames of the keyframes synthesized on one animator. -/
def animatorKeyframeSpans (a : TextAnimator) : List (ℤ × ℤ) :=
  (match a.typographyProperties.position with
   | some k => [(k.startTime, k.endTime)]
   | none => []) ++
  (match a.typographyProperties.scale with
   | some k => [(k.startTime, k.endTime)]
   | none => []) ++
  (match a.typographyProperties.rotation with
   | some k => [(k.startTime, k.endTime)]
   | none => []) ++
  (match a.typographyProperties.opacity with
   | some k => [(k.startTime, k.endTime)]
   | none => [])

/-! ## General helper lemmas -/

theorem Clamp01_nonneg (q : ℚ) : 0 ≤ Clamp01 q := by
  unfold Clamp01
  split_ifs with h1 h2 <;> linarith

theorem Clamp01_eq_self {q : ℚ} (h0 : 0 ≤ q) (h1 : q ≤ 1) : Clamp01 q = q := by
  unfold Clamp01
  rw [if_neg (by linarith), if_neg (by linarith)]

theorem foldl_eq_of_fix {α β : Type} (f : β → α → β) (b : β) :
    ∀ l : List α, (∀ a ∈ l, f b a = b) → l.foldl f b = b := by
  intro l
  induction l with
  | nil => intro _; rfl
  | cons a l ih =>
    intro h
    have ha : f b a = b := h a (List.mem_cons_self a l)
    have hl : ∀ x ∈ l, f b x = b := fun x hx => h x (List.mem_cons_of_mem a hx)
    simp only [List.foldl_cons, ha]
    exact ih hl

theorem length_filterMap_eq_length_filter {α β : Type} (f : α → Option β) (p : α → Bool) :
    ∀ l : List α, (∀ a ∈ l, (f a).isSome = p a) →
      (l.filterMap f).length = (l.filter p).length := by
  intro l
  induction l with
  | nil => intro _; rfl
  | cons a l ih =>
    intro h
    have ha : (f a).isSome = p a := h a (List.mem_cons_self a l)
    have hl := ih fun x hx => h x (List.mem_cons_of_mem a hx)
    cases hfa : f a with
    | none =>
      have hpa : p a = false := by rw [← ha, hfa]; rfl
      simp [List.filterMap_cons, List.filter_cons, hfa, hpa, hl]
    | some b =>
      have hpa : p a = true := by rw [← ha, hfa]; rfl
      simp [List.filterMap_cons, List.filter_cons, hfa, hpa, hl]

theorem roundAway_eq_of_nonneg {q : ℚ} {m : ℤ} (h0 : 0 ≤ q) (h1 : (m : ℚ) ≤ q + 1 / 2)
    (h2 : q + 1 / 2 < m + 1) : roundAway q = m := by
  rw [roundAway, if_pos h0]
  exact Int.floor_eq_iff.mpr ⟨h1, h2⟩

theorem roundAway_eq_of_neg {q : ℚ} {m : ℤ} (h0 : q < 0) (h1 : (m : ℚ) - 1 < q - 1 / 2)
    (h2 : q - 1 / 2 ≤ m) : roundAway q = m := by
  rw [roundAway, if_neg (not_le.mpr h0)]
  exact Int.ceil_eq_iff.mpr ⟨h1, h2⟩

theorem roundAway_intCast (m : ℤ) : roundAway ((m : ℚ)) = m := by
  rcases le_or_lt 0 (m : ℚ) with h | h
  · exact roundAway_eq_of_nonneg h (by linarith) (by linarith)
  · exact roundAway_eq_of_neg h (by linarith) (by linarith)

/-! ## Claim theorems -/

/-- C5: the factory functions return null on construction-invalid input and
never throw (both embeddings are total functions): `SlideLeftPreset::Make`
returns null whenever the text layer is null or `duration ≤ 0`, and
`PAGTextLayer::Make` returns null whenever `duration ≤ 0` or the text document
is null. -/
theorem factories_return_null_on_invalid_input (duration : ℤ) (hasTextLayer : Bool)
    (baseTransform : Option Transform2D) (startX endX stagger trailing : ℚ)
    (doc : Option TextDocument) :
    (hasTextLayer = false ∨ duration ≤ 0 →
      SlideLeftPreset.Make hasTextLayer baseTransform duration startX endX stagger trailing = none)
    ∧ (duration ≤ 0 ∨ doc = none → PAGTextLayer.Make duration doc = none) := by
  constructor
  · intro h
    rw [SlideLeftPreset.Make, if_pos h]
  · intro h
    rw [PAGTextLayer.Make.eq_def, if_pos h]

theorem factories_return_null_on_invalid_input_witness :
    SlideLeftPreset.Make false none 0 240 40 (3 / 5) 1 = none
    ∧ PAGTextLayer.Make 0 none = none :=
  ⟨(factories_return_null_on_invalid_input 0 false none 240 40 (3 / 5) 1 none).1 (Or.inl rfl),
   (factories_return_null_on_invalid_input 0 false none 240 40 (3 / 5) 1 none).2 (Or.inr rfl)⟩

/-- C9: after every `setTransform2D` call (with a non-null argument, i.e. one
that actually writes), at most one of `{position}` and
`{xPosition, yPosition}` is populated on the layer's transform: a unified
position clears `xPosition`/`yPosition`, and separate x/y positions clear
`position`. -/
theorem setTransform2D_position_exclusive (t : Transform2D) (st : PAGLayerState) :
    ∃ t2, (PAGLayer.setTransform2D (some t) st).transform = some t2
      ∧ (t.position.isSome = true →
          t2.position = t.position ∧ t2.xPosition = none ∧ t2.yPosition = none)
      ∧ (t.position = none → t2.position = none)
      ∧ (t2.position = none ∨ (t2.xPosition = none ∧ t2.yPosition = none)) := by
  refine ⟨setTransform2DApply t (st.transform.getD Transform2D.MakeDefault), rfl, ?_, ?_, ?_⟩ <;>
    · unfold setTransform2DApply
      rcases t with ⟨a, p, x, y, s, r, o⟩
      cases a <;> cases p <;> cases x <;> cases y <;> cases s <;> cases r <;> cases o <;> simp

theorem setTransform2D_position_exclusive_witness :
    ∃ t2,
      (PAGLayer.setTransform2D
          (some { anchorPoint := none, position := some (5, 6), xPosition := none,
                  yPosition := none, scale := none, rotation := none, opacity := none })
          { transform := none, startFrame := 0, frameDuration := 10, frameRate := 60,
            contentFrame := 0, contentVersion := 0 }).transform = some t2
      ∧ t2.position = some (5, 6) ∧ t2.xPosition = none ∧ t2.yPosition = none := by
  obtain ⟨t2, h1, h2, _, _⟩ :=
    setTransform2D_position_exclusive
      { anchorPoint := none, position := some (5, 6), xPosition := none,
        yPosition := none, scale := none, rotation := none, opacity := none }
      { transform := none, startFrame := 0, frameDuration := 10, frameRate := 60,
        contentFrame := 0, contentVersion := 0 }
  obtain ⟨hp, hx, hy⟩ := h2 rfl
  exact ⟨t2, h1, hp, hx, hy⟩

/-- C10: once `setProgress` has been called on a `SlideLeftGlyphProvider`
(whose duration is nonnegative, as the constructor guarantees), `compute`
ignores its layer-time argument entirely: for any two times and the same glyph
count it produces identical `(applied, dx, dy, alpha)` results, because the
manual-time override is never revoked. -/
theorem compute_ignores_time_after_setProgress (st : SlideLeftGlyphProvider) (p : ℚ)
    (t1 t2 : ℤ) (n : ℕ) (hd : 0 ≤ st.durationUS) :
    (st.setProgress p).compute t1 n = (st.setProgress p).compute t2 n := by
  have hmanual : 0 ≤ (st.setProgress p).manualTimeUS := by
    show 0 ≤ Clamp01 p * (st.durationUS : ℚ)
    have h2 : (0 : ℚ) ≤ (st.durationUS : ℚ) := by exact_mod_cast hd
    exact mul_nonneg (Clamp01_nonneg p) h2
  unfold SlideLeftGlyphProvider.compute
  simp only [if_pos hmanual]

theorem compute_ignores_time_after_setProgress_witness :
    ((SlideLeftGlyphProvider.make 3000000 (-200) (3 / 5) 1).setProgress (3 / 4)).compute 0 5
      = ((SlideLeftGlyphProvider.make 3000000 (-200) (3 / 5) 1).setProgress (3 / 4)).compute
          1500000 5 :=
  compute_ignores_time_after_setProgress (SlideLeftGlyphProvider.make 3000000 (-200) (3 / 5) 1)
    (3 / 4) 0 1500000 5 (by decide)

/-- C8: after `detachFromTree`, a freshly allocated lock (one not present in
the tree the layer left) is installed on the layer and, recursively, on every
layer of its attached track-matte chain: the whole detached subtree shares the
single fresh lock and shares nothing with the old tree. -/
theorem detachFromTree_installs_fresh_shared_lock (lockChain oldLocks : List ℕ)
    (freshLocker : ℕ) (h : freshLocker ∉ oldLocks) :
    (detachFromTree lockChain freshLocker).length = lockChain.length
    ∧ ∀ x ∈ detachFromTree lockChain freshLocker, x = freshLocker ∧ x ∉ oldLocks := by
  unfold detachFromTree
  constructor
  · induction lockChain with
    | nil => rfl
    | cons a l ih => simp only [updateRootLocker, List.length_cons, ih]
  · induction lockChain with
    | nil =>
      intro x hx
      simp [updateRootLocker] at hx
    | cons a l ih =>
      intro x hx
      simp only [updateRootLocker] at hx
      rcases List.mem_cons.mp hx with hx | hx
      · exact ⟨hx, hx ▸ h⟩
      · exact ih x hx

theorem detachFromTree_installs_fresh_shared_lock_witness :
    (detachFromTree [3, 3, 3] 7).length = 3
    ∧ ∀ x ∈ detachFromTree [3, 3, 3] 7, x = 7 ∧ x ∉ [3, 5] := by
  have h := detachFromTree_installs_fresh_shared_lock [3, 3, 3] [3, 5] 7 (by decide)
  exact h

/-- C2 (amended): for a two-level nested composition whose inner layer runs at
24 fps under a 60 fps root (owner chain `[⟨s, 60⟩]`, inner frame rate 24),
`globalToLocalFrame (localFrameToGlobal f) = f` for every integer frame `f`
(in particular every frame within the inner layer's duration), despite the
non-exact rate ratio `60/24 = 5/2`. -/
theorem roundTrip_inner24_root60 (s f : ℤ) :
    globalToLocalFrame [⟨s, 60⟩] 24 (localFrameToGlobal [⟨s, 60⟩] 24 f) = f := by
  show TimelineNode.localFrameToChild ⟨s, 60⟩
      (TimelineNode.childFrameToLocal ⟨s, 60⟩ f 24) 24 = f
  unfold TimelineNode.localFrameToChild TimelineNode.childFrameToLocal
  have hinner : roundAway ((f : ℚ) * (60 / 24)) + s - s = roundAway ((f : ℚ) * (60 / 24)) := by
    ring
  rw [hinner]
  rcases Int.even_or_odd f with ⟨k, hk⟩ | ⟨k, hk⟩
  · have h1 : (f : ℚ) * (60 / 24) = ((5 * k : ℤ) : ℚ) := by
      push_cast [hk]
      ring
    rw [h1, roundAway_intCast]
    have h2 : ((5 * k : ℤ) : ℚ) * (24 / 60) = ((f : ℤ) : ℚ) := by
      push_cast [hk]
      ring
    rw [h2, roundAway_intCast]
  · rcases le_or_lt 0 k with hk0 | hk0
    · have hk0Q : (0 : ℚ) ≤ (k : ℚ) := by exact_mod_cast hk0
      have h1 : roundAway ((f : ℚ) * (60 / 24)) = 5 * k + 3 := by
        apply roundAway_eq_of_nonneg
        · push_cast [hk]
          linarith
        · push_cast [hk]
          linarith
        · push_cast [hk]
          linarith
      rw [h1]
      apply roundAway_eq_of_nonneg
      · push_cast [hk]
        linarith
      · push_cast [hk]
        linarith
      · push_cast [hk]
        linarith
    · have hk1 : k ≤ -1 := by omega
      have hk1Q : (k : ℚ) ≤ -1 := by exact_mod_cast hk1
      have h1 : roundAway ((f : ℚ) * (60 / 24)) = 5 * k + 2 := by
        apply roundAway_eq_of_neg
        · push_cast [hk]
          linarith
        · push_cast [hk]
          linarith
        · push_cast [hk]
          linarith
      rw [h1]
      apply roundAway_eq_of_neg
      · push_cast [hk]
        linarith
      · push_cast [hk]
        linarith
      · push_cast [hk]
        linarith

/-- C2 counterexample: with the rates assigned the other way round — inner
layer at 60 fps nested in a 24 fps root — the round trip is not the identity:
frame 1 (well within an inner duration of, say, 60 frames) comes back as 0,
because `localFrameToGlobal` rounds `1 * 24/60` down to global frame 0. -/
theorem roundTrip_inner60_root24_fails :
    globalToLocalFrame [⟨0, 24⟩] 60 (localFrameToGlobal [⟨0, 24⟩] 60 1) = 0 := by
  have h1 : roundAway ((2 : ℚ) / 5) = 0 := by
    apply roundAway_eq_of_nonneg <;> norm_num
  have h0 : roundAway ((0 : ℚ)) = 0 := by
    simpa using roundAway_intCast 0
  norm_num [globalToLocalFrame, localFrameToGlobal, TimelineNode.localFrameToChild,
    TimelineNode.childFrameToLocal]
  rw [h1]
  norm_num [h0]

theorem mem_ancestorChainAux_lt {n : ℕ} (t : LayerForest n) (h : t.Acyclic) :
    ∀ (fuel : ℕ) (i j : Fin n), j ∈ ancestorChainAux t fuel i → j.val < i.val := by
  intro fuel
  induction fuel with
  | zero =>
    intro i j hj
    simp [ancestorChainAux] at hj
  | succ fuel ih =>
    intro i j hj
    cases hm : t.getParentOrOwner i with
    | none => simp [ancestorChainAux, hm] at hj
    | some j1 =>
      simp only [ancestorChainAux, hm, List.mem_cons] at hj
      rcases hj with hj | hj
      · exact hj ▸ h i j1 hm
      · exact (ih j1 j hj).trans (h i j1 hm)

theorem ancestorChainAux_nodup {n : ℕ} (t : LayerForest n) (h : t.Acyclic) :
    ∀ (fuel : ℕ) (i : Fin n), (ancestorChainAux t fuel i).Nodup := by
  intro fuel
  induction fuel with
  | zero =>
    intro i
    simp [ancestorChainAux]
  | succ fuel ih =>
    intro i
    cases hm : t.getParentOrOwner i with
    | none => simp [ancestorChainAux, hm]
    | some j1 =>
      simp only [ancestorChainAux, hm, List.nodup_cons]
      refine ⟨fun hmem => ?_, ih j1⟩
      exact absurd (mem_ancestorChainAux_lt t h fuel j1 j1 hmem) (lt_irrefl _)

theorem ancestorChainAux_isWalk {n : ℕ} (t : LayerForest n) (h : t.Acyclic) :
    ∀ (fuel : ℕ) (i : Fin n), i.val < fuel → IsOwnerWalk t i (ancestorChainAux t fuel i) := by
  intro fuel
  induction fuel with
  | zero =>
    intro i hi
    exact absurd hi (Nat.not_lt_zero _)
  | succ fuel ih =>
    intro i hi
    cases hm : t.getParentOrOwner i with
    | none =>
      simp only [ancestorChainAux, hm]
      exact IsOwnerWalk.stop hm
    | some j1 =>
      simp only [ancestorChainAux, hm]
      exact IsOwnerWalk.step hm (ih j1 (lt_of_lt_of_le (h i j1 hm) (Nat.lt_succ_iff.mp hi)))

theorem foldl_update_count {n : ℕ} :
    ∀ (l : List (Fin n)), l.Nodup → ∀ (v : Fin n → ℕ) (k : Fin n),
      (l.foldl (fun acc j => Function.update acc j (acc j + 1)) v) k
        = v k + (if k ∈ l then 1 else 0) := by
  intro l
  induction l with
  | nil =>
    intro _ v k
    simp
  | cons a l ih =>
    intro hnd v k
    have hrest := ih hnd.of_cons (Function.update v a (v a + 1)) k
    simp only [List.foldl_cons] at *
    rw [hrest]
    by_cases hk : k = a
    · subst hk
      have hknotl : k ∉ l := (List.nodup_cons.mp hnd).1
      simp [Function.update_same, hknotl]
    · simp [Function.update_noteq hk, List.mem_cons, hk]

/-- C6: `notifyModified(true)` bumps this layer's `contentVersion` and the
counter of exactly the layers on the parent-or-track-matte-owner walk to the
root; the walk is the full pointer chase (it follows `getParentOrOwner` links
until null), visits each ancestor exactly once (O(depth)), and no other
layer's counter changes. -/
theorem notifyModified_bumps_ancestors_once {n : ℕ} (t : LayerForest n) (h : t.Acyclic)
    (versions : Fin n → ℕ) (i : Fin n) :
    IsOwnerWalk t i (ancestorChain t i)
    ∧ (ancestorChain t i).Nodup
    ∧ i ∉ ancestorChain t i
    ∧ ∀ j, notifyModified t versions i true j
        = versions j + (if j = i ∨ j ∈ ancestorChain t i then 1 else 0) := by
  have hwalk := ancestorChainAux_isWalk t h n i i.isLt
  have hnd := ancestorChainAux_nodup t h n i
  have hni : i ∉ ancestorChain t i := fun hmem =>
    absurd (mem_ancestorChainAux_lt t h n i i hmem) (lt_irrefl _)
  refine ⟨hwalk, hnd, hni, fun j => ?_⟩
  unfold notifyModified
  simp only [reduceIte]
  rw [foldl_update_count (ancestorChain t i) hnd]
  by_cases hji : j = i
  · subst hji
    simp [hni, Function.update_same]
  · rw [Function.update_noteq hji]
    by_cases hjc : j ∈ ancestorChain t i <;> simp [hji, hjc]

theorem notifyModified_bumps_ancestors_once_witness :
    (⟨fun i => if i.val = 2 then some 1 else none,
      fun i => if i.val = 1 then some 0 else none⟩ : LayerForest 3).Acyclic
    ∧ ∀ j : Fin 3,
        notifyModified
          (⟨fun i => if i.val = 2 then some 1 else none,
            fun i => if i.val = 1 then some 0 else none⟩ : LayerForest 3)
          (fun _ => 0) 2 true j
        = (fun _ => (0 : ℕ)) j
          + (if j = 2 ∨ j ∈ ancestorChain
              (⟨fun i => if i.val = 2 then some 1 else none,
                fun i => if i.val = 1 then some 0 else none⟩ : LayerForest 3) 2 then 1 else 0) :=
  ⟨by decide,
   (notifyModified_bumps_ancestors_once
     (⟨fun i => if i.val = 2 then some 1 else none,
       fun i => if i.val = 1 then some 0 else none⟩ : LayerForest 3)
     (by decide) (fun _ => 0) 2).2.2.2⟩

theorem TextMotionPreset.clear_make (L : TextLayerState) (rate : ℚ) :
    (TextMotionPreset.make (some L) rate).clear = TextMotionPreset.make (some L) rate := by
  rcases L with ⟨lst, ldur, lsrc, lgl, lanim, lmo⟩
  cases lmo with
  | none =>
    simp [TextMotionPreset.make, TextMotionPreset.clear, List.take_length]
  | some m =>
    rcases m with ⟨g, ga⟩
    simp [TextMotionPreset.make, TextMotionPreset.clear, List.take_length]

theorem TextMotionPreset.apply_make_early (L : TextLayerState) (rate : ℚ)
    (options : TextMotionOptions) (h : L.sourceText = none ∨ L.glyphs.isEmpty = true) :
    TextMotionPreset.apply (TextMotionPreset.make (some L) rate) options
      = (false, TextMotionPreset.make (some L) rate) := by
  have hlayer : (TextMotionPreset.make (some L) rate).layer = some L := rfl
  have hcl := TextMotionPreset.clear_make L rate
  rcases h with h | h
  · simp only [TextMotionPreset.apply, hcl, hlayer, h]
  · cases hsrc : L.sourceText with
    | none => simp only [TextMotionPreset.apply, hcl, hlayer, hsrc]
    | some doc => simp only [TextMotionPreset.apply, hcl, hlayer, hsrc, h, reduceIte]

theorem TextMotionPreset.apply_make_full (L : TextLayerState) (rate : ℚ)
    (options : TextMotionOptions) (doc : TextDocument) (hdoc : L.sourceText = some doc)
    (hne : L.glyphs.isEmpty = false) :
    TextMotionPreset.apply (TextMotionPreset.make (some L) rate) options
      = TextMotionPreset.applyToLayer (TextMotionPreset.make (some L) rate) L doc options := by
  have hlayer : (TextMotionPreset.make (some L) rate).layer = some L := rfl
  have hcl := TextMotionPreset.clear_make L rate
  simp only [TextMotionPreset.apply, hcl, hlayer, hdoc, hne, Bool.false_eq_true, reduceIte]

theorem buildRanges_allWhitespace (glyphs : List String) (hne : glyphs ≠ [])
    (hws : ∀ g ∈ glyphs, IsWhitespaceGlyph g = true) (effect : TextMotionEffect) :
    BuildRanges effect glyphs = [⟨0, glyphs.length⟩] := by
  have hempty : glyphs.isEmpty = false := by
    cases glyphs with
    | nil => exact absurd rfl hne
    | cons a l => rfl
  have hgetD : ∀ i, i < glyphs.length → IsWhitespaceGlyph (glyphs.getD i "") = true := by
    intro i hi
    rw [List.getD_eq_getElem glyphs "" hi]
    exact hws _ (List.getElem_mem hi)
  unfold BuildRanges
  rw [hempty]
  cases effect with
  | None => rfl
  | Letter =>
    have hfilter :
        (List.range glyphs.length).filter
          (fun i => !IsWhitespaceGlyph (glyphs.getD i "")) = [] := by
      rw [List.filter_eq_nil_iff]
      intro i hi
      rw [List.mem_range] at hi
      rw [hgetD i hi]
      simp
    simp only [Bool.false_eq_true, reduceIte, hfilter, List.map_nil]
    rfl
  | Word =>
    have hfold :
        (List.range glyphs.length).foldl
          (fun (st : Bool × ℕ × List UnitRange) (i : ℕ) =>
            if IsWhitespaceGlyph (glyphs.getD i "") then
              if st.1 then (false, st.2.1, st.2.2 ++ [⟨st.2.1, i⟩]) else st
            else if !st.1 then (true, i, st.2.2)
            else st) (false, 0, []) = (false, 0, []) := by
      apply foldl_eq_of_fix
      intro i hi
      rw [List.mem_range] at hi
      rw [hgetD i hi]
      simp
    simp only [Bool.false_eq_true, reduceIte]
    rw [hfold]
    rfl

theorem generatedAnimators_fullspan_length (rate : ℚ) (l : TextLayerState) (doc : TextDocument)
    (options : TextMotionOptions)
    (hBR : BuildRanges options.effect l.glyphs = [⟨0, l.glyphs.length⟩])
    (hn : l.glyphs ≠ []) :
    (TextMotionPreset.generatedAnimators rate l doc options).length = 1 := by
  have hlen : l.glyphs.length ≠ 0 := fun h => hn (List.length_eq_zero.mp h)
  have hpos : 0 < l.glyphs.length := Nat.pos_of_ne_zero hlen
  unfold TextMotionPreset.generatedAnimators
  rw [hBR]
  simp only [List.length_singleton]
  have hr1 : List.range 1 = [0] := rfl
  rw [hr1]
  simp only [List.filterMap_cons, List.filterMap_nil]
  unfold TextMotionPreset.rangeAnimator
  simp only [List.getD_cons_zero, Nat.min_self, Nat.zero_min]
  rw [if_neg (not_le.mpr hpos)]
  rfl

/-- C4 (amended): `TextMotionPreset::apply` on a document whose glyph sequence
is non-empty and entirely whitespace does NOT fail: segmentation falls back to
one full-span range, so it returns `true` and appends exactly one animator.
(`apply` returns false with no animators only when the glyph list itself is
empty or the document is null.) -/
theorem apply_allWhitespace_creates_fullspan_animator (L : TextLayerState) (rate : ℚ)
    (options : TextMotionOptions) (doc : TextDocument) (hdoc : L.sourceText = some doc)
    (hne : L.glyphs ≠ []) (hws : ∀ g ∈ L.glyphs, IsWhitespaceGlyph g = true) :
    (TextMotionPreset.apply (TextMotionPreset.make (some L) rate) options).1 = true
    ∧ (TextMotionPreset.apply
        (TextMotionPreset.make (some L) rate) options).2.layerAnimatorCount
      = L.animators.length + 1 := by
  have hempty : L.glyphs.isEmpty = false := by
    cases hgl : L.glyphs with
    | nil => exact absurd hgl hne
    | cons a l => rfl
  have hBR := buildRanges_allWhitespace L.glyphs hne hws options.effect
  have hlen := generatedAnimators_fullspan_length rate L doc options hBR hne
  have hfr : (TextMotionPreset.make (some L) rate).frameRate = rate := rfl
  rw [TextMotionPreset.apply_make_full L rate options doc hdoc hempty]
  unfold TextMotionPreset.applyToLayer
  rw [hfr]
  constructor
  · have hgenE : (TextMotionPreset.generatedAnimators rate L doc options).isEmpty = false := by
      rcases hgen : TextMotionPreset.generatedAnimators rate L doc options with _ | ⟨a, rest⟩
      · rw [hgen] at hlen
        simp at hlen
      · rfl
    simp [hgenE]
  · have hanimators :
        (TextMotionPreset.applyMoreOption L options
          (TextMotionPreset.make (some L) rate).createdMoreOption).1.animators
          = L.animators := by
      unfold TextMotionPreset.applyMoreOption
      cases L.moreOption <;> rfl
    simp only [TextMotionPreset.layerAnimatorCount, List.length_append, hanimators, hlen]

theorem apply_allWhitespace_claim_counterexample :
    (TextMotionPreset.apply
      (TextMotionPreset.make
        (some { startTime := 0, duration := 10,
                sourceText := some ⟨" ", 48, "Arial", "Regular"⟩,
                glyphs := [" "], animators := [], moreOption := none }) 60)
      { effect := .Letter }).1 = true
    ∧ (TextMotionPreset.apply
        (TextMotionPreset.make
          (some { startTime := 0, duration := 10,
                  sourceText := some ⟨" ", 48, "Arial", "Regular"⟩,
                  glyphs := [" "], animators := [], moreOption := none }) 60)
        { effect := .Letter }).2.layerAnimatorCount = 1 :=
  ⟨rfl, rfl⟩

theorem apply_allWhitespace_creates_fullspan_animator_witness :
    (TextMotionPreset.apply
      (TextMotionPreset.make
        (some { startTime := 0, duration := 10,
                sourceText := some ⟨"\t\n", 48, "Arial", "Regular"⟩,
                glyphs := ["\t", "\n"], animators := [], moreOption := none }) 60)
      { effect := .Word }).1 = true
    ∧ (TextMotionPreset.apply
        (TextMotionPreset.make
          (some { startTime := 0, duration := 10,
                  sourceText := some ⟨"\t\n", 48, "Arial", "Regular"⟩,
                  glyphs := ["\t", "\n"], animators := [], moreOption := none }) 60)
        { effect := .Word }).2.layerAnimatorCount = 0 + 1 :=
  apply_allWhitespace_creates_fullspan_animator
    { startTime := 0, duration := 10, sourceText := some ⟨"\t\n", 48, "Arial", "Regular"⟩,
      glyphs := ["\t", "\n"], animators := [], moreOption := none }
    60 { effect := .Word } ⟨"\t\n", 48, "Arial", "Regular"⟩ rfl (by decide) (by decide)

theorem frameClamp_spec (startF e0 lastF : ℤ) :
    startF < (if lastF < (if e0 ≤ startF then startF + 1 else e0)
              then (if lastF ≤ startF then startF + 1 else lastF)
              else (if e0 ≤ startF then startF + 1 else e0))
    ∧ (startF < lastF →
        (if lastF < (if e0 ≤ startF then startF + 1 else e0)
         then (if lastF ≤ startF then startF + 1 else lastF)
         else (if e0 ≤ startF then startF + 1 else e0)) ≤ lastF) := by
  constructor
  · split_ifs <;> omega
  · intro h
    split_ifs <;> omega

/-- C7 (amended): every animator generated by `TextMotionPreset::apply` has
its keyframe end at least one frame past its start, and the end never exceeds
the layer's end frame `startTime + duration` PROVIDED the (stagger-shifted)
start frame itself lies before the layer's end; when the start frame already
reached the layer's end, the `endFrame = startFrame + 1` floor wins and the
end exceeds the layer's end by construction. -/
theorem generated_keyframes_clamped (frameRate : ℚ) (l : TextLayerState) (doc : TextDocument)
    (options : TextMotionOptions) :
    ∀ a ∈ TextMotionPreset.generatedAnimators frameRate l doc options,
      ∀ s ∈ animatorKeyframeSpans a,
        s.1 < s.2 ∧ (s.1 < l.startTime + l.duration → s.2 ≤ l.startTime + l.duration) := by
  intro a ha s hs
  unfold TextMotionPreset.generatedAnimators at ha
  rw [List.mem_filterMap] at ha
  obtain ⟨i, hi, hfi⟩ := ha
  rw [TextMotionPreset.rangeAnimator.eq_def] at hfi
  simp only [] at hfi
  split at hfi
  · exact absurd hfi (by simp)
  · have ha2 := Option.some.inj hfi
    subst ha2
    cases htype : options.type <;>
      · rw [htype] at hs
        simp only [animatorKeyframeSpans, MakeScalarAnimation, MakePointAnimation,
          List.append_nil, List.nil_append, List.mem_singleton] at hs
        subst hs
        exact frameClamp_spec _ _ _

theorem generated_keyframes_clamped_witness :
    ((0, 1) : ℤ × ℤ).1 < ((0, 1) : ℤ × ℤ).2
    ∧ (((0, 1) : ℤ × ℤ).1 < (0 : ℤ) + 10 → ((0, 1) : ℤ × ℤ).2 ≤ (0 : ℤ) + 10) := by
  have h0 : roundAway ((0 : ℚ)) = 0 := by
    simpa using roundAway_intCast 0
  have hT : TimeToFrame 0 60 = 0 := by
    norm_num [TimeToFrame]
  have hr1 : List.range 1 = [0] := rfl
  have hspans : (TextMotionPreset.generatedAnimators 60
      { startTime := 0, duration := 10, sourceText := some ⟨"a", 48, "Arial", "Regular"⟩,
        glyphs := ["a"], animators := [], moreOption := none }
      ⟨"a", 48, "Arial", "Regular"⟩ { type := .Fade }).map animatorKeyframeSpans
      = [[(0, 1)]] := by
    simp only [TextMotionPreset.generatedAnimators, TextMotionPreset.rangeAnimator]
    norm_num [BuildRanges, IsWhitespaceGlyph, animatorKeyframeSpans, MakeScalarAnimation,
      hr1, h0, hT, List.filterMap_cons]
  rcases hgen : TextMotionPreset.generatedAnimators 60
      { startTime := 0, duration := 10, sourceText := some ⟨"a", 48, "Arial", "Regular"⟩,
        glyphs := ["a"], animators := [], moreOption := none }
      ⟨"a", 48, "Arial", "Regular"⟩ { type := .Fade } with _ | ⟨a0, rest⟩
  · rw [hgen] at hspans
    exact absurd hspans (by simp)
  · rw [hgen] at hspans
    cases rest with
    | cons b r2 => simp at hspans
    | nil =>
      simp only [List.map_cons, List.map_nil, List.cons.injEq, and_true] at hspans
      exact generated_keyframes_clamped 60
        { startTime := 0, duration := 10, sourceText := some ⟨"a", 48, "Arial", "Regular"⟩,
          glyphs := ["a"], animators := [], moreOption := none }
        ⟨"a", 48, "Arial", "Regular"⟩ { type := .Fade } a0
        (by rw [hgen]; exact List.mem_cons_self a0 [])
        (0, 1) (by rw [hspans]; exact List.mem_singleton.mpr rfl)

/-- C7 counterexample: on a layer whose frame duration is 0 (reachable from
`PAGTextLayer::Make` with any duration below one frame), the single generated
animator's keyframe runs from frame 0 to frame 1, exceeding the layer's end
frame `startTime + duration = 0`: the "at least one frame past start" floor
beats the "never exceeds the layer's end" clamp. -/
theorem generated_keyframes_exceed_layer_end :
    ((TextMotionPreset.apply
        (TextMotionPreset.make
          (some { startTime := 0, duration := 0,
                  sourceText := some ⟨"a", 48, "Arial", "Regular"⟩,
                  glyphs := ["a"], animators := [], moreOption := none }) 60)
        { type := .Fade }).2.layerAnimators.map animatorKeyframeSpans) = [[(0, 1)]]
    ∧ ¬ ((1 : ℤ) ≤ 0 + 0) := by
  constructor
  · rw [TextMotionPreset.apply_make_full
      { startTime := 0, duration := 0, sourceText := some ⟨"a", 48, "Arial", "Regular"⟩,
        glyphs := ["a"], animators := [], moreOption := none } 60 { type := .Fade }
      ⟨"a", 48, "Arial", "Regular"⟩ rfl rfl]
    unfold TextMotionPreset.applyToLayer
    have h0 : roundAway ((0 : ℚ)) = 0 := by
      simpa using roundAway_intCast 0
    have hT : TimeToFrame 0 60 = 0 := by
      norm_num [TimeToFrame]
    have hfr : (TextMotionPreset.make
        (some { startTime := 0, duration := 0,
                sourceText := some ⟨"a", 48, "Arial", "Regular"⟩,
                glyphs := ["a"], animators := [], moreOption := none }) 60).frameRate = 60 := rfl
    have hr1 : List.range 1 = [0] := rfl
    simp only [TextMotionPreset.layerAnimators, TextMotionPreset.applyMoreOption,
      TextMotionPreset.generatedAnimators, TextMotionPreset.rangeAnimator, hfr]
    norm_num [BuildRanges, IsWhitespaceGlyph, animatorKeyframeSpans, MakeScalarAnimation,
      hr1, h0, hT, List.filterMap_cons]
  · decide

theorem applyMoreOption_animators (l : TextLayerState) (options : TextMotionOptions) (c : Bool) :
    (TextMotionPreset.applyMoreOption l options c).1.animators = l.animators := by
  unfold TextMotionPreset.applyMoreOption
  cases l.moreOption <;> rfl

theorem generatedAnimators_length_eq (frameRate : ℚ) (l : TextLayerState) (doc : TextDocument)
    (options : TextMotionOptions) (hsrc : l.sourceText = some doc)
    (hgl : l.glyphs.isEmpty = false) :
    (TextMotionPreset.generatedAnimators frameRate l doc options).length
      = rangesGeneratedFor options l := by
  unfold TextMotionPreset.generatedAnimators rangesGeneratedFor
  rw [if_neg (by
    rintro (h | h)
    · rw [hsrc] at h
      exact Option.noConfusion h
    · rw [hgl] at h
      exact Bool.noConfusion h)]
  apply length_filterMap_eq_length_filter
  intro i _
  rw [TextMotionPreset.rangeAnimator.eq_def]
  simp only []
  split
  next h => exact (decide_eq_false (not_lt.mpr h)).symm
  next h => exact (decide_eq_true (lt_of_not_ge h)).symm

theorem apply_make_count (L : TextLayerState) (rate : ℚ) (options : TextMotionOptions) :
    (TextMotionPreset.apply (TextMotionPreset.make (some L) rate) options).2.layerAnimatorCount
      = L.animators.length + rangesGeneratedFor options L := by
  cases hsrc : L.sourceText with
  | none =>
    rw [TextMotionPreset.apply_make_early L rate options (Or.inl hsrc)]
    simp [TextMotionPreset.layerAnimatorCount, TextMotionPreset.make, rangesGeneratedFor, hsrc]
  | some doc =>
    cases hgl : L.glyphs.isEmpty with
    | true =>
      rw [TextMotionPreset.apply_make_early L rate options (Or.inr hgl)]
      simp [TextMotionPreset.layerAnimatorCount, TextMotionPreset.make, rangesGeneratedFor, hgl]
    | false =>
      rw [TextMotionPreset.apply_make_full L rate options doc hsrc hgl]
      unfold TextMotionPreset.applyToLayer
      have hfr : (TextMotionPreset.make (some L) rate).frameRate = rate := rfl
      simp only [TextMotionPreset.layerAnimatorCount, List.length_append,
        applyMoreOption_animators, hfr,
        generatedAnimators_length_eq rate L doc options hsrc hgl]

theorem apply_eq_of_clear (pr : TextMotionPreset) (l0 L2 : TextLayerState) (rate : ℚ)
    (options : TextMotionOptions) (hl0 : pr.layer = some l0)
    (hclear : pr.clear = TextMotionPreset.make (some L2) rate) :
    TextMotionPreset.apply pr options
      = TextMotionPreset.apply (TextMotionPreset.make (some L2) rate) options := by
  have hlayer2 : (TextMotionPreset.make (some L2) rate).layer = some L2 := rfl
  simp only [TextMotionPreset.apply, hl0, hclear, TextMotionPreset.clear_make, hlayer2]

/-- C3: applying a `TextMotionPreset` twice with options `A` then `B` leaves
exactly the state of a single `apply(B)`: the animator count equals the count
recorded at construction plus the animators generated for `B` alone, and
nothing created for `A` survives (the whole second result — layer animators,
grouping option and preset bookkeeping — coincides with the `B`-only run). -/
theorem apply_twice_eq_apply_once (L : TextLayerState) (rate : ℚ)
    (A B : TextMotionOptions) :
    TextMotionPreset.apply (TextMotionPreset.apply (TextMotionPreset.make (some L) rate) A).2 B
      = TextMotionPreset.apply (TextMotionPreset.make (some L) rate) B
    ∧ (TextMotionPreset.apply
        (TextMotionPreset.apply (TextMotionPreset.make (some L) rate) A).2 B).2.layerAnimatorCount
      = (TextMotionPreset.make (some L) rate).baseAnimatorCount + rangesGeneratedFor B L := by
  have hbase : (TextMotionPreset.make (some L) rate).baseAnimatorCount = L.animators.length := rfl
  suffices heq :
      TextMotionPreset.apply (TextMotionPreset.apply (TextMotionPreset.make (some L) rate) A).2 B
        = TextMotionPreset.apply (TextMotionPreset.make (some L) rate) B by
    refine ⟨heq, ?_⟩
    rw [heq, hbase]
    exact apply_make_count L rate B
  cases hsrc : L.sourceText with
  | none =>
    rw [TextMotionPreset.apply_make_early L rate A (Or.inl hsrc)]
  | some doc =>
    cases hgl : L.glyphs.isEmpty with
    | true =>
      rw [TextMotionPreset.apply_make_early L rate A (Or.inr hgl)]
    | false =>
      rcases L with ⟨lst, ldur, lsrc, lgl, lanim, lmo⟩
      rw [TextMotionPreset.apply_make_full ⟨lst, ldur, lsrc, lgl, lanim, lmo⟩ rate A doc hsrc hgl]
      cases lmo with
      | none =>
        refine apply_eq_of_clear _ _ _ rate B rfl ?_
        simp [TextMotionPreset.applyToLayer, TextMotionPreset.applyMoreOption,
          TextMotionPreset.clear, TextMotionPreset.make, List.take_left]
      | some m =>
        rcases m with ⟨mg, mga⟩
        cases mga with
        | some ga =>
          refine apply_eq_of_clear _ _ _ rate B rfl ?_
          simp [TextMotionPreset.applyToLayer, TextMotionPreset.applyMoreOption,
            TextMotionPreset.clear, TextMotionPreset.make, List.take_left]
        | none =>
          rw [apply_eq_of_clear _ _
            ⟨lst, ldur, lsrc, lgl, lanim, some ⟨mg, some (1/2, 1/2)⟩⟩ rate B rfl (by
              simp [TextMotionPreset.applyToLayer, TextMotionPreset.applyMoreOption,
                TextMotionPreset.clear, TextMotionPreset.make, List.take_left])]
          have hsrc2 : (⟨lst, ldur, lsrc, lgl, lanim,
              some ⟨mg, some (1/2, 1/2)⟩⟩ : TextLayerState).sourceText = some doc := hsrc
          have hgl2 : (⟨lst, ldur, lsrc, lgl, lanim,
              some ⟨mg, some (1/2, 1/2)⟩⟩ : TextLayerState).glyphs.isEmpty = false := hgl
          rw [TextMotionPreset.apply_make_full _ rate B doc hsrc2 hgl2,
            TextMotionPreset.apply_make_full ⟨lst, ldur, lsrc, lgl, lanim,
              some ⟨mg, none⟩⟩ rate B doc hsrc hgl]
          simp [TextMotionPreset.applyToLayer, TextMotionPreset.applyMoreOption,
            TextMotionPreset.generatedAnimators, TextMotionPreset.make]

theorem setTransform2DApply_position_of_isSome (t target : Transform2D)
    (h : t.position.isSome = true) :
    (setTransform2DApply t target).position = t.position := by
  unfold setTransform2DApply
  rcases t with ⟨a, pp, x, y, s, r, o⟩
  cases a <;> cases pp <;> cases x <;> cases y <;> cases s <;> cases r <;> cases o <;>
    simp_all

theorem updateTransform_position (pr : SlideLeftPreset) (eased : ℚ) (st : PAGLayerState) :
    ∃ t2, (pr.updateTransform eased st).transform = some t2
      ∧ t2.position = some
          (pr.startPosition.1 + (pr.endPosition.1 - pr.startPosition.1) * eased,
           pr.startPosition.2 + (pr.endPosition.2 - pr.startPosition.2) * eased) := by
  unfold SlideLeftPreset.updateTransform PAGLayer.setTransform2D
  refine ⟨_, rfl, ?_⟩
  rw [setTransform2DApply_position_of_isSome _ _ (by rfl)]

/-- The numeric core of the progress round trip: if `T` over-approximates the
layer duration in microseconds by less than one (a ceiling), `t` is within one
below `p * T` (a floor) and `f` within one below `t * r / 10^6` (a floor),
then the clamped normalized frame `f / D` is within `2 / D` of `p`. -/
theorem progress_roundtrip_core (D T t f : ℤ) (p r : ℚ)
    (hp0 : 0 ≤ p) (hp1 : p ≤ 1) (hDQ : 1 ≤ (D : ℚ))
    (hr0 : 0 < r) (hr1 : r ≤ 1000000)
    (hT1 : (D : ℚ) * 1000000 / r ≤ (T : ℚ)) (hT2 : (T : ℚ) < (D : ℚ) * 1000000 / r + 1)
    (ht1 : (t : ℚ) ≤ p * (T : ℚ)) (ht2 : p * (T : ℚ) - 1 < (t : ℚ))
    (hf1 : (f : ℚ) ≤ (t : ℚ) * r / 1000000) (hf2 : (t : ℚ) * r / 1000000 - 1 < (f : ℚ)) :
    |FrameToProgress f D - p| ≤ 2 / (D : ℚ) := by
  have hDpos : (0 : ℚ) < (D : ℚ) := by linarith
  have hrne : r ≠ 0 := ne_of_gt hr0
  have hA : ((D : ℚ) * 1000000 / r) * r = (D : ℚ) * 1000000 := div_mul_cancel₀ _ hrne
  have h2 : p * (T : ℚ) ≤ p * ((D : ℚ) * 1000000 / r + 1) :=
    mul_le_mul_of_nonneg_left hT2.le hp0
  have h3 : (t : ℚ) * r ≤ (p * ((D : ℚ) * 1000000 / r + 1)) * r :=
    mul_le_mul_of_nonneg_right (le_trans ht1 h2) hr0.le
  have h5 : p * r ≤ 1 * 1000000 := mul_le_mul hp1 hr1 hr0.le zero_le_one
  have h6 : (t : ℚ) * r ≤ p * ((D : ℚ) * 1000000) + 1000000 := by
    have hexpand : (p * ((D : ℚ) * 1000000 / r + 1)) * r
        = p * (((D : ℚ) * 1000000 / r) * r) + p * r := by ring
    rw [hexpand, hA] at h3
    linarith
  have hfU : (f : ℚ) ≤ p * (D : ℚ) + 1 := by
    have hdiv : (t : ℚ) * r / 1000000 ≤ p * (D : ℚ) + 1 := by linarith
    linarith
  have h7 : p * ((D : ℚ) * 1000000 / r) ≤ p * (T : ℚ) := mul_le_mul_of_nonneg_left hT1 hp0
  have h9 : (p * ((D : ℚ) * 1000000 / r) - 1) * r < (t : ℚ) * r :=
    mul_lt_mul_of_pos_right (by linarith) hr0
  have h10 : (p * ((D : ℚ) * 1000000 / r) - 1) * r = p * ((D : ℚ) * 1000000) - r := by
    rw [sub_mul, one_mul, mul_assoc, hA]
  have h11 : p * ((D : ℚ) * 1000000) - r < (t : ℚ) * r := by
    rw [h10] at h9
    exact h9
  have hfL : p * (D : ℚ) - 2 < (f : ℚ) := by
    have hdiv : p * (D : ℚ) - r / 1000000 < (t : ℚ) * r / 1000000 := by linarith
    have hrdiv : r / 1000000 ≤ 1 := by linarith
    linarith
  have hDZ : (1 : ℤ) ≤ D := by exact_mod_cast hDQ
  unfold FrameToProgress
  rw [if_neg (by omega : ¬ D ≤ 0)]
  have hfDU : (f : ℚ) / (D : ℚ) ≤ p + 1 / (D : ℚ) := by
    rw [div_le_iff₀ hDpos]
    have hmul : (p + 1 / (D : ℚ)) * (D : ℚ) = p * (D : ℚ) + 1 := by
      field_simp
    rw [hmul]
    exact hfU
  have hfDL : p - 2 / (D : ℚ) < (f : ℚ) / (D : ℚ) := by
    rw [lt_div_iff₀ hDpos]
    have hmul : (p - 2 / (D : ℚ)) * (D : ℚ) = p * (D : ℚ) - 2 := by
      field_simp
    rw [hmul]
    exact hfL
  have hGU : max 0 (min 1 ((f : ℚ) / (D : ℚ))) ≤ p + 1 / (D : ℚ) := by
    apply max_le
    · have : (0 : ℚ) < 1 / (D : ℚ) := by positivity
      linarith
    · exact le_trans (min_le_right _ _) hfDU
  have hGL : p - 2 / (D : ℚ) ≤ max 0 (min 1 ((f : ℚ) / (D : ℚ))) := by
    refine le_trans (le_min ?_ hfDL.le) (le_max_right _ _)
    have : (0 : ℚ) < 2 / (D : ℚ) := by positivity
    linarith
  have h12 : (1 : ℚ) / (D : ℚ) ≤ 2 / (D : ℚ) := by
    apply (div_le_div_iff_of_pos_right hDpos).mpr
    norm_num
  rw [abs_le]
  constructor
  · linarith
  · linarith

theorem setProgress_getProgress_bound (st : PAGLayerState) (p : ℚ)
    (hp0 : 0 ≤ p) (hp1 : p ≤ 1) (hD : 1 ≤ st.frameDuration)
    (hr0 : 0 < st.frameRate) (hr1 : st.frameRate ≤ 1000000) (hs : st.startFrame = 0) :
    |PAGLayer.getProgress (PAGLayer.setProgress p st) - p| ≤ 2 / (st.frameDuration : ℚ) := by
  have hgoal : PAGLayer.getProgress (PAGLayer.setProgress p st)
      = FrameToProgress
          (TimeToFrame (ProgressToTime p (FrameToTime st.frameDuration st.frameRate))
            st.frameRate)
          st.frameDuration := by
    unfold PAGLayer.getProgress PAGLayer.setProgress PAGLayer.gotoTime
      PAGLayer.startTimeInternal PAGLayer.durationInternal
    rw [hs]
    have hFT0 : FrameToTime 0 st.frameRate = 0 := by
      unfold FrameToTime
      norm_num
    rw [hFT0]
    norm_num
  rw [hgoal]
  have hDQ : (1 : ℚ) ≤ (st.frameDuration : ℚ) := by exact_mod_cast hD
  apply progress_roundtrip_core st.frameDuration
      (FrameToTime st.frameDuration st.frameRate)
      (ProgressToTime p (FrameToTime st.frameDuration st.frameRate))
      (TimeToFrame (ProgressToTime p (FrameToTime st.frameDuration st.frameRate)) st.frameRate)
      p st.frameRate hp0 hp1 hDQ hr0 hr1
  · exact Int.le_ceil _
  · exact Int.ceil_lt_add_one _
  · exact Int.floor_le _
  · exact Int.sub_one_lt_floor _
  · exact Int.floor_le _
  · exact Int.sub_one_lt_floor _

/-- C1: for progress `p ∈ [0, 1]`, `SlideLeftPreset::apply(p)` on a live layer
(made by `PAGTextLayer::Make`: start frame 0, positive frame duration, sane
frame rate) installs a transform whose position x equals
`startX + (endX - startX) * easeOutCubic(p)` exactly, and drives the layer so
that `getProgress()` returns `p` up to the frame-quantisation tolerance
`2 / frameDuration`. -/
theorem slideLeftApply_position_and_progress
    (baseTransform : Option Transform2D) (presetDuration : ℤ)
    (startX endX stagger trailing : ℚ)
    (provider : SlideLeftGlyphProvider) (st : PAGLayerState) (p : ℚ)
    (hp0 : 0 ≤ p) (hp1 : p ≤ 1)
    (hD : 1 ≤ st.frameDuration) (hr0 : 0 < st.frameRate)
    (hr1 : st.frameRate ≤ 1000000) (hs : st.startFrame = 0) :
    (∃ t2 pos,
      ((SlideLeftPreset.make baseTransform presetDuration startX endX stagger trailing).apply
          provider p st).2.2.transform = some t2
      ∧ t2.position = some pos
      ∧ pos.1 = startX + (endX - startX) * EaseOutCubic p)
    ∧ |PAGLayer.getProgress
        (((SlideLeftPreset.make baseTransform presetDuration startX endX stagger trailing).apply
            provider p st).2.2) - p| ≤ 2 / (st.frameDuration : ℚ) := by
  have hcp : Clamp01 p = p := Clamp01_eq_self hp0 hp1
  constructor
  · obtain ⟨t2, ht2, hpos⟩ := updateTransform_position
      { SlideLeftPreset.make baseTransform presetDuration startX endX stagger trailing with
          currentProgress := Clamp01 p }
      (EaseOutCubic (Clamp01 p))
      (PAGLayer.setProgress (Clamp01 p) st)
    refine ⟨t2, _, ht2, hpos, ?_⟩
    rw [hcp]
    rfl
  · show |PAGLayer.getProgress (PAGLayer.setProgress (Clamp01 p) st) - p|
      ≤ 2 / (st.frameDuration : ℚ)
    rw [hcp]
    exact setProgress_getProgress_bound st p hp0 hp1 hD hr0 hr1 hs

theorem slideLeftApply_position_and_progress_witness :
    (∃ t2 pos,
      ((SlideLeftPreset.make none 3000000 240 40 (3 / 5) 1).apply
          (SlideLeftGlyphProvider.make 3000000 (-200) (3 / 5) 1) (1 / 2)
          { transform := none, startFrame := 0, frameDuration := 180, frameRate := 60,
            contentFrame := 0, contentVersion := 0 }).2.2.transform = some t2
      ∧ t2.position = some pos
      ∧ pos.1 = 240 + (40 - 240) * EaseOutCubic (1 / 2))
    ∧ |PAGLayer.getProgress
        (((SlideLeftPreset.make none 3000000 240 40 (3 / 5) 1).apply
            (SlideLeftGlyphProvider.make 3000000 (-200) (3 / 5) 1) (1 / 2)
            { transform := none, startFrame := 0, frameDuration := 180, frameRate := 60,
              contentFrame := 0, contentVersion := 0 }).2.2) - 1 / 2| ≤ 2 / 180 :=
  slideLeftApply_position_and_progress none 3000000 240 40 (3 / 5) 1
    (SlideLeftGlyphProvider.make 3000000 (-200) (3 / 5) 1)
    { transform := none, startFrame := 0, frameDuration := 180, frameRate := 60,
      contentFrame := 0, contentVersion := 0 }
    (1 / 2) (by norm_num) (by norm_num) (by norm_num) (by norm_num) (by norm_num) rfl

end pag
